import Mathlib

/-
  Verification development for the glosm OSM-XML ingestion core
  (src/libglosm-server/src/PreloadedXmlDatasource.cc).

  The C++ source is shallowly embedded below.  Fixed-point coordinates
  (osmint_t, a 32-bit int) and identifiers are modelled as Int, with the
  implementation-defined long-to-int narrowing made explicit (toInt32).
  Fallible code returns Except or CRes; a C++ execution that hits
  undefined behaviour (reading an uninitialized local, calling front()
  or back() on an empty vector, dereferencing the attribute terminator)
  is modelled by the distinguished result CRes.ub.

  The build modelled is the default one (TRUSTED_XML undefined), where
  every StrEq<I> template instance is a full strcmp.
-/

deriving instance DecidableEq for Except

namespace Glosm

/-- Fixed-point 2D position; x is longitude, y is latitude, both scaled by 10^7. -/
structure Vector2i where
  x : Int
  y : Int
deriving DecidableEq

/-- Errors thrown by ParseCoord (all are ParsingException in the C++ source). -/
inductive CoordErr
  | tooLarge      -- "bad coordinate format (value too large)"
  | badSymbol     -- "bad coordinate format (unexpected symbol)"
  | multipleDots  -- "bad coordinate format (multiple dots)"
deriving DecidableEq

/-- Exception classes of the error taxonomy (Exception.hh class hierarchy). -/
inductive ExcClass
  | parsing  -- ParsingException
  | data     -- DataException
deriving DecidableEq

/-- Relation::Member::Type_t -/
inductive MemberType
  | NODE
  | WAY
  | RELATION
deriving DecidableEq

/-- Every throw site of the embedded code, tagged by source message. -/
inductive Err
  | coord (c : CoordErr)
  | badBBox                           -- "incorrect bounding box" (ParseBounds)
  | badBoundFormat                    -- "bad bbox format" (ParseBound)
  | unexpectedTagInNode               -- "unexpected tag in node"
  | unexpectedTagInWay                -- "unexpected tag in way"
  | noRefAttr                         -- "no ref attribute for nd tag"
  | unexpectedTagInRelation           -- "unexpected tag in relation"
  | badMemberType                     -- "bad relation member role"
  | unexpectedAttrInMember            -- "unexpected attribute in relation member"
  | unexpectedTag                     -- "unexpected tag"
  | nodeNotFound (nodeId wayId : Int) -- "node N referenced by way W was not found in this dump"
  | dataNotFound                      -- "node/way/relation not found" (GetNode/GetWay/GetRelation)
deriving DecidableEq

/-- Exception class of each error: the EndElement missing-node throw is a
ParsingException in the source (line 321/333); only the Get* lookups throw
DataException. -/
def Err.excClass : Err → ExcClass
  | .dataNotFound => .data
  | _ => .parsing

/-- Result of running a piece of C++: normal value, thrown exception, or
undefined behaviour. -/
inductive CRes (α : Type)
  | ok (a : α)
  | err (e : Err)
  | ub
deriving DecidableEq

/-- LONG_MAX on the LP64 platforms glosm targets. -/
def longMax : Int := 2 ^ 63 - 1

/-- LONG_MIN on the LP64 platforms glosm targets. -/
def longMin : Int := -(2 ^ 63)

/-- Digit-accumulation part of strtol: consume a decimal-digit prefix. -/
def strtolDigits : List Char → Int → Int
  | c :: rest, acc =>
    if '0' ≤ c ∧ c ≤ '9' then strtolDigits rest (acc * 10 + ((c.toNat : Int) - 48))
    else acc
  | [], acc => acc

/-- strtol(str, NULL, 10): optional whitespace, optional sign, decimal digits,
clamped to the long range. -/
def strtol (s : String) : Int :=
  let cs := s.data.dropWhile (fun c => c == ' ' || c == '\t' || c == '\n' || c == '\r')
  match cs with
  | '-' :: rest => max longMin (-(strtolDigits rest 0))
  | '+' :: rest => min longMax (strtolDigits rest 0)
  | _ => min longMax (strtolDigits cs 0)

/-- Implementation-defined (modular, as on gcc) conversion of a long value to
a 32-bit int; this is what `int id = strtol(...)` does in StartElement. -/
def toInt32 (n : Int) : Int := (n + 2 ^ 31) % 2 ^ 32 - 2 ^ 31

/-- Scanning loop of ParseCoord (lines 108-120): state is (value, fracdig,
haddot); breaks out (returning fracdig = 7) on the 7th fractional digit. -/
def coordScan : List Char → Int → Nat → Nat → Except CoordErr (Int × Nat × Nat)
  | [], value, fracdig, haddot => .ok (value, fracdig, haddot)
  | c :: rest, value, fracdig, haddot =>
    if '0' ≤ c ∧ c ≤ '9' then
      if haddot = 0 then
        if value * 10 + ((c.toNat : Int) - 48) > 180 then .error .tooLarge
        else coordScan rest (value * 10 + ((c.toNat : Int) - 48)) fracdig haddot
      else
        if fracdig + 1 = 7 then .ok (value * 10 + ((c.toNat : Int) - 48), 7, haddot)
        else coordScan rest (value * 10 + ((c.toNat : Int) - 48)) (fracdig + 1) haddot
    else if c = '.' then coordScan rest value fracdig (haddot + 1)
    else .error .badSymbol

/-- Post-scan part of ParseCoord: the multiple-dot check (line 122) and the
zero-padding to 7 fractional digits (lines 125-126). -/
def parseCoordTail (neg : Bool) (cs : List Char) : Except CoordErr Int :=
  match coordScan cs 0 0 0 with
  | .error e => .error e
  | .ok (value, fracdig, haddot) =>
    if haddot > 1 then .error .multipleDots
    else if neg then .ok (-(value * 10 ^ (7 - fracdig)))
    else .ok (value * 10 ^ (7 - fracdig))

/-- ParseCoord (lines 96-129): fixed-point decimal-degree decoder. -/
def ParseCoord (s : String) : Except CoordErr Int :=
  match s.data with
  | [] => parseCoordTail false []
  | ch :: rest =>
    if ch = '-' then parseCoordTail true rest
    else parseCoordTail false (ch :: rest)

/-- TagsMap = std::map of string to string, as an association list in
insertion order (std::map iteration order is irrelevant to the claims). -/
abbrev TagsMap := List (String × String)

/-- std::map::insert semantics: a duplicate key leaves the map unchanged. -/
def TagsMap.insertKV (m : TagsMap) (k v : String) : TagsMap :=
  match m.lookup k with
  | some _ => m
  | none => m ++ [(k, v)]

/-- Attribute scan of ParseTag (lines 134-141): the running (key, value)
pair, later occurrences of k or v overwriting the locals. -/
def scanTagKV : List (String × String) → String × String → String × String
  | [], kv => kv
  | (n, v) :: rest, kv =>
    scanTagKV rest (if n = "k" then (v, kv.2) else if n = "v" then (kv.1, v) else kv)

/-- ParseTag (lines 131-144). -/
def ParseTag (m : TagsMap) (atts : List (String × String)) : TagsMap :=
  TagsMap.insertKV m (scanTagKV atts ("", "")).1 (scanTagKV atts ("", "")).2

/-- INT_MAX: osmint_t is a 32-bit int. -/
def osmintMax : Int := 2 ^ 31 - 1

/-- INT_MIN. -/
def osmintMin : Int := -(2 ^ 31)

/-- Modelled from the spec: BBox.hh is not under src/.  A rectangle in
fixed-point coordinate space with an explicit empty sentinel state
(limits-based, per BBoxi::Empty()); Include expands the box to cover a
point, and an empty box collapses to the point. -/
structure BBoxi where
  left : Int
  bottom : Int
  right : Int
  top : Int
deriving DecidableEq

/-- Modelled from the spec: the empty sentinel BBoxi::Empty(). -/
def BBoxi.EmptyBox : BBoxi := ⟨osmintMax, osmintMax, osmintMin, osmintMin⟩

/-- Modelled from the spec: the empty sentinel is distinguishable from any
degenerate zero-area box. -/
def BBoxi.IsEmpty (b : BBoxi) : Bool :=
  decide (b.left > b.right) || decide (b.bottom > b.top)

/-- Modelled from the spec: point inclusion, expanding the box to cover p. -/
def BBoxi.Include (b : BBoxi) (p : Vector2i) : BBoxi :=
  if b.IsEmpty then ⟨p.x, p.y, p.x, p.y⟩
  else ⟨min b.left p.x, min b.bottom p.y, max b.right p.x, max b.top p.y⟩

/-- OsmDatasource::Node: a fixed-point position (constructed Node(lon, lat)). -/
structure Node where
  Pos : Vector2i
deriving DecidableEq

/-- OsmDatasource::Way with the default-constructed field values. -/
structure Way where
  Nodes : List Int := []
  Tags : TagsMap := []
  BBox : BBoxi := BBoxi.EmptyBox
  Closed : Bool := false
  Clockwise : Bool := false
deriving DecidableEq

/-- Relation::Member. -/
structure Member where
  type : MemberType
  ref : Int
  role : String
deriving DecidableEq

/-- OsmDatasource::Relation (tags are not stored in the minimal build). -/
structure Relation where
  Members : List Member := []
deriving DecidableEq

abbrev NodesMap := List (Int × Node)
abbrev WaysMap := List (Int × Way)
abbrev RelationsMap := List (Int × Relation)

/-- std::map::insert on an id-keyed map: no overwrite on an existing key. -/
def mapInsert {α : Type} (m : List (Int × α)) (k : Int) (v : α) : List (Int × α) :=
  match m.lookup k with
  | some _ => m
  | none => m ++ [(k, v)]

/-- Update through the remembered iterator (last_way_ and friends): rewrite
the entry whose key matches. -/
def mapUpdate {α : Type} (m : List (Int × α)) (k : Int) (f : α → α) : List (Int × α) :=
  m.map (fun kv => if kv.1 = k then (kv.1, f kv.2) else kv)

/-- The InsideWhich container-kind state of the dispatcher. -/
inductive ContainerKind
  | NONE
  | NODE
  | WAY
  | RELATION
deriving DecidableEq

/-- Parser-facing state of PreloadedXmlDatasource. -/
structure PState where
  nodes_ : NodesMap := []
  ways_ : WaysMap := []
  relations_ : RelationsMap := []
  bbox_ : BBoxi := BBoxi.EmptyBox
  tag_level_ : Int := 0
  InsideWhich : ContainerKind := .NONE
  last_node_ : Int := 0
  last_way_ : Int := 0
  last_relation_ : Int := 0
deriving DecidableEq

/-- Attribute pre-scan of the level-1 branch of StartElement (lines 211-223):
id via strtol into an int, lat and lon via ParseCoord. -/
def scanIdLatLon : List (String × String) → Int → Int → Int → Except CoordErr (Int × Int × Int)
  | [], i, lat, lon => .ok (i, lat, lon)
  | (n, v) :: rest, i, lat, lon =>
    if n = "id" then scanIdLatLon rest (toInt32 (strtol v)) lat lon
    else if n = "lat" then
      match ParseCoord v with
      | .error e => .error e
      | .ok c => scanIdLatLon rest i c lon
    else if n = "lon" then
      match ParseCoord v with
      | .error e => .error e
      | .ok c => scanIdLatLon rest i lat c
    else scanIdLatLon rest i lat lon

/-- Attribute scan of ParseBounds (lines 149-160). -/
def scanBounds : List (String × String) → BBoxi → Except CoordErr BBoxi
  | [], bb => .ok bb
  | (n, v) :: rest, bb =>
    if n = "minlat" then
      match ParseCoord v with
      | .error e => .error e
      | .ok c => scanBounds rest { bb with bottom := c }
    else if n = "maxlat" then
      match ParseCoord v with
      | .error e => .error e
      | .ok c => scanBounds rest { bb with top := c }
    else if n = "minlon" then
      match ParseCoord v with
      | .error e => .error e
      | .ok c => scanBounds rest { bb with left := c }
    else if n = "maxlon" then
      match ParseCoord v with
      | .error e => .error e
      | .ok c => scanBounds rest { bb with right := c }
    else scanBounds rest bb

/-- ParseBounds (lines 146-166): rejects a box still empty after the scan. -/
def ParseBounds (atts : List (String × String)) : Except Err BBoxi :=
  match scanBounds atts BBoxi.EmptyBox with
  | .error e => .error (.coord e)
  | .ok bb => if bb.IsEmpty then .error .badBBox else .ok bb

/-- Value parse of one box="lat,lon,lat,lon" attribute (lines 172-186); the
substr after the third comma keeps any further commas, so they reach
ParseCoord and fail there. -/
def parseBoundBox (v : String) : Except Err BBoxi :=
  match v.splitOn "," with
  | p1 :: p2 :: p3 :: p4 :: rest =>
    (match ParseCoord p1 with
     | .error e => .error (.coord e)
     | .ok b =>
       match ParseCoord p2 with
       | .error e => .error (.coord e)
       | .ok l =>
         match ParseCoord p3 with
         | .error e => .error (.coord e)
         | .ok t =>
           match ParseCoord (String.intercalate "," (p4 :: rest)) with
           | .error e => .error (.coord e)
           | .ok r => .ok ⟨l, b, r, t⟩)
  | _ => .error .badBoundFormat

/-- Attribute scan of ParseBound (lines 171-190). -/
def scanBound : List (String × String) → BBoxi → Except Err BBoxi
  | [], bb => .ok bb
  | (n, v) :: rest, bb =>
    if n = "box" then
      match parseBoundBox v with
      | .error e => .error e
      | .ok bb' => scanBound rest bb'
    else scanBound rest bb

/-- ParseBound (lines 168-193): the legacy format, no emptiness check. -/
def ParseBound (atts : List (String × String)) : Except Err BBoxi :=
  scanBound atts BBoxi.EmptyBox

/-- The nd handler (lines 256-264): only the first attribute is examined;
an empty attribute array dereferences the NULL terminator (UB). -/
def parseNd (atts : List (String × String)) : CRes Int :=
  match atts with
  | [] => .ub
  | (n, v) :: _ =>
    if n = "ref" then .ok (toInt32 (strtol v))
    else .err .noRefAttr

/-- Attribute scan of the member handler (lines 272-294): ref, type and role
are uninitialized locals in the C++; a missing one is read uninitialized
after the loop (UB), modelled by tracking them as Options. -/
def memberScan : List (String × String) → Option Int → Option MemberType → Option String → CRes Member
  | [], ref?, type?, role? =>
    (match ref?, type?, role? with
     | some r, some t, some ro => .ok ⟨t, r, ro⟩
     | _, _, _ => .ub)
  | (n, v) :: rest, ref?, type?, role? =>
    if n = "ref" then memberScan rest (some (toInt32 (strtol v))) type? role?
    else if n = "type" then
      if v = "node" then memberScan rest ref? (some .NODE) role?
      else if v = "way" then memberScan rest ref? (some .WAY) role?
      else if v = "relation" then memberScan rest ref? (some .RELATION) role?
      else .err .badMemberType
    else if n = "role" then memberScan rest ref? type? (some v)
    else .err .unexpectedAttrInMember

/-- The member handler of StartElement. -/
def parseMember (atts : List (String × String)) : CRes Member :=
  memberScan atts none none none

/-- PreloadedXmlDatasource::StartElement (lines 209-305). -/
def StartElement (s : PState) (name : String) (atts : List (String × String)) : CRes PState :=
  if s.tag_level_ = 1 ∧ s.InsideWhich = .NONE then
    match scanIdLatLon atts 0 0 0 with
    | .error e => .err (.coord e)
    | .ok (i, lat, lon) =>
      if name = "node" then
        .ok { s with InsideWhich := .NODE,
                     nodes_ := mapInsert s.nodes_ i ⟨⟨lon, lat⟩⟩,
                     last_node_ := i,
                     tag_level_ := s.tag_level_ + 1 }
      else if name = "way" then
        .ok { s with InsideWhich := .WAY,
                     ways_ := mapInsert s.ways_ i {},
                     last_way_ := i,
                     tag_level_ := s.tag_level_ + 1 }
      else if name = "relation" then
        .ok { s with InsideWhich := .RELATION,
                     relations_ := mapInsert s.relations_ i {},
                     last_relation_ := i,
                     tag_level_ := s.tag_level_ + 1 }
      else if name = "bounds" then
        match ParseBounds atts with
        | .error e => .err e
        | .ok bb => .ok { s with bbox_ := bb, tag_level_ := s.tag_level_ + 1 }
      else if name = "bound" then
        match ParseBound atts with
        | .error e => .err e
        | .ok bb => .ok { s with bbox_ := bb, tag_level_ := s.tag_level_ + 1 }
      else .ok { s with tag_level_ := s.tag_level_ + 1 }
  else if s.tag_level_ = 2 ∧ s.InsideWhich = .NODE then
    if name = "tag" then .ok { s with tag_level_ := s.tag_level_ + 1 }
    else .err .unexpectedTagInNode
  else if s.tag_level_ = 2 ∧ s.InsideWhich = .WAY then
    if name = "tag" then
      .ok { s with ways_ := mapUpdate s.ways_ s.last_way_ (fun w => { w with Tags := ParseTag w.Tags atts }),
                   tag_level_ := s.tag_level_ + 1 }
    else if name = "nd" then
      match parseNd atts with
      | .ok r =>
        .ok { s with ways_ := mapUpdate s.ways_ s.last_way_ (fun w => { w with Nodes := w.Nodes ++ [r] }),
                     tag_level_ := s.tag_level_ + 1 }
      | .err e => .err e
      | .ub => .ub
    else .err .unexpectedTagInWay
  else if s.tag_level_ = 2 ∧ s.InsideWhich = .RELATION then
    if name = "tag" then .ok { s with tag_level_ := s.tag_level_ + 1 }
    else if name = "member" then
      match parseMember atts with
      | .ok m =>
        .ok { s with relations_ := mapUpdate s.relations_ s.last_relation_ (fun r => { r with Members := r.Members ++ [m] }),
                     tag_level_ := s.tag_level_ + 1 }
      | .err e => .err e
      | .ub => .ub
    else .err .unexpectedTagInRelation
  else if s.tag_level_ ≥ 2 then .err .unexpectedTag
  else .ok { s with tag_level_ := s.tag_level_ + 1 }

/-- The closed-way loop of EndElement (lines 316-326): resolve each node id,
accumulate the shoelace cross products in an osmlong_t (64-bit; modelled as
Int, signed overflow being UB in C++) and include each position in the box. -/
def closedLoop (nm : NodesMap) (wid : Int) : List Int → Option Vector2i → Int → BBoxi → Except Err (Int × BBoxi)
  | [], _, area, bb => .ok (area, bb)
  | i :: rest, prev?, area, bb =>
    match nm.lookup i with
    | none => .error (.nodeNotFound i wid)
    | some nd =>
      closedLoop nm wid rest (some nd.Pos)
        (match prev? with
         | none => area
         | some p => area + p.x * nd.Pos.y - nd.Pos.x * p.y)
        (bb.Include nd.Pos)

/-- The non-closed-way loop of EndElement (lines 330-335). -/
def openLoop (nm : NodesMap) (wid : Int) : List Int → BBoxi → Except Err BBoxi
  | [], bb => .ok bb
  | i :: rest, bb =>
    match nm.lookup i with
    | none => .error (.nodeNotFound i wid)
    | some nd => openLoop nm wid rest (bb.Include nd.Pos)

/-- End-of-way processing (lines 310-336): Nodes.front() == Nodes.back() on
an empty list is undefined behaviour; otherwise the closed flag, winding
flag and bounding box are derived. -/
def processWay (nm : NodesMap) (wid : Int) (w : Way) : CRes Way :=
  match w.Nodes with
  | [] => .ub
  | n0 :: _ =>
    if n0 = w.Nodes.getLastD 0 then
      match closedLoop nm wid w.Nodes none 0 w.BBox with
      | .error e => .err e
      | .ok (area, bb) =>
        .ok { w with Closed := true, Clockwise := decide (area < 0), BBox := bb }
    else
      match openLoop nm wid w.Nodes w.BBox with
      | .error e => .err e
      | .ok bb => .ok { w with BBox := bb }

/-- PreloadedXmlDatasource::EndElement (lines 307-345). -/
def EndElement (s : PState) (_name : String) : CRes PState :=
  if s.tag_level_ = 2 then
    match s.InsideWhich with
    | .WAY =>
      (match s.ways_.lookup s.last_way_ with
       | none => .ub
       | some w =>
         match processWay s.nodes_ s.last_way_ w with
         | .ok w' =>
           .ok { s with ways_ := mapUpdate s.ways_ s.last_way_ (fun _ => w'),
                        InsideWhich := .NONE,
                        tag_level_ := s.tag_level_ - 1 }
         | .err e => .err e
         | .ub => .ub)
    | _ => .ok { s with InsideWhich := .NONE, tag_level_ := s.tag_level_ - 1 }
  else .ok { s with tag_level_ := s.tag_level_ - 1 }

/-- One expat callback: element open or element close. -/
inductive XmlEvent
  | startEl (name : String) (atts : List (String × String))
  | endEl (name : String)
deriving DecidableEq

/-- Dispatch of one callback. -/
def step (s : PState) : XmlEvent → CRes PState
  | .startEl n atts => StartElement s n atts
  | .endEl n => EndElement s n

/-- The streaming phase of Load: feed every callback in order, aborting on
the first thrown exception. -/
def processEvents : PState → List XmlEvent → CRes PState
  | s, [] => .ok s
  | s, e :: rest =>
    match step s e with
    | .ok s' => processEvents s' rest
    | .err er => .err er
    | .ub => .ub

/-- Postprocessing of Load (lines 402-407): if the dataset box is still
empty, accumulate every stored node position into it. -/
def bboxPostprocess (s : PState) : PState :=
  if s.bbox_.IsEmpty then
    { s with bbox_ := s.nodes_.foldl (fun b kv => b.Include kv.2.Pos) s.bbox_ }
  else s

/-- PreloadedXmlDatasource::Load (lines 355-408) over an already-tokenized
event stream: reset bbox_ and the dispatcher state, stream, postprocess. -/
def LoadEvents (s : PState) (evs : List XmlEvent) : CRes PState :=
  match processEvents { s with bbox_ := BBoxi.EmptyBox, InsideWhich := .NONE, tag_level_ := 0 } evs with
  | .ok s' => .ok (bboxPostprocess s')
  | .err e => .err e
  | .ub => .ub

/-- PreloadedXmlDatasource::Clear (lines 410-414). -/
def Clear (s : PState) : PState :=
  { s with nodes_ := [], ways_ := [], relations_ := [] }

/-- PreloadedXmlDatasource::GetNode (lines 416-421): a DataException miss. -/
def GetNode (s : PState) (i : Int) : Except Err Node :=
  match s.nodes_.lookup i with
  | some n => .ok n
  | none => .error .dataNotFound

/-- First way-referenced node id missing from the node map, in list order. -/
def firstMissing (nm : NodesMap) (ids : List Int) : Option Int :=
  ids.find? (fun i => (nm.lookup i).isNone)

/-- Resolution of a whole node-id list against the node map. -/
def resolveList (nm : NodesMap) : List Int → Option (List Vector2i)
  | [] => some []
  | i :: rest =>
    match nm.lookup i, resolveList nm rest with
    | some nd, some ps => some (nd.Pos :: ps)
    | _, _ => none

/-- Shoelace cross-product sum over consecutive positions. -/
def shoelaceSum : List Vector2i → Int
  | p :: q :: rest => (p.x * q.y - q.x * p.y) + shoelaceSum (q :: rest)
  | _ => 0

/-- Shoelace sum as accumulated by closedLoop from an optional previous
position. -/
def shoelacePrev : Option Vector2i → List Vector2i → Int
  | none, ps => shoelaceSum ps
  | some p, ps => shoelaceSum (p :: ps)

/-- Projection of a way-processing result onto the Closed flag. -/
def closedOf : CRes Way → Option Bool
  | .ok w => some w.Closed
  | _ => none

/-- Projection of a way-processing result onto the Clockwise flag. -/
def clockwiseOf : CRes Way → Option Bool
  | .ok w => some w.Clockwise
  | _ => none

/-- True on the events that can set the dataset bounding box. -/
def isBBoxEvent : XmlEvent → Bool
  | .startEl n _ => n == "bounds" || n == "bound"
  | .endEl _ => false

/-- Node map of the unit test square: four corners of a 10 by 10 square. -/
def sqNodes : NodesMap :=
  [(1, ⟨⟨0, 0⟩⟩), (2, ⟨⟨10, 0⟩⟩), (3, ⟨⟨10, 10⟩⟩), (4, ⟨⟨0, 10⟩⟩)]

/-- Square traversed (0,0) (10,0) (10,10) (0,10) (0,0): counter-clockwise. -/
def wayCCW : Way := { Nodes := [1, 2, 3, 4, 1] }

/-- The reverse traversal: clockwise. -/
def wayCW : Way := { Nodes := [1, 4, 3, 2, 1] }

/-- State right after the opening osm root element. -/
def c5pre : PState := { tag_level_ := 1 }

/-- State after a node element with id 4294967301: the id has been narrowed
to the int value 5 before insertion. -/
def c5post : PState :=
  { nodes_ := [(5, ⟨⟨20000000, 10000000⟩⟩)], tag_level_ := 2, InsideWhich := .NODE, last_node_ := 5 }

/-- State inside a relation that already holds one member. -/
def relPre : PState :=
  { relations_ := [(9, { Members := [⟨.NODE, 1, "a"⟩] })],
    last_relation_ := 9, tag_level_ := 2, InsideWhich := .RELATION }

/-- The same state after one more member element: appended at the end. -/
def relPost : PState :=
  { relations_ := [(9, { Members := [⟨.NODE, 1, "a"⟩, ⟨.WAY, 2, "b"⟩] })],
    last_relation_ := 9, tag_level_ := 3, InsideWhich := .RELATION }

/-- A tiny dump with one node and a legacy bound element carrying no box
attribute: ParseBound returns the declared box still in the empty sentinel
state, unchecked. -/
def c6evs : List XmlEvent :=
  [.startEl "osm" [], .startEl "bound" [], .endEl "bound",
   .startEl "node" [("id", "1"), ("lat", "2"), ("lon", "3")], .endEl "node", .endEl "osm"]

/-- The state streaming c6evs produces, before bbox postprocessing: the
declared dataset box is the empty sentinel. -/
def c6s1pre : PState :=
  { nodes_ := [(1, ⟨⟨30000000, 20000000⟩⟩)], bbox_ := BBoxi.EmptyBox, last_node_ := 1 }

/-- State inside an open way with no tags yet. -/
def c10pre : PState :=
  { ways_ := [(4, {})], last_way_ := 4, tag_level_ := 2, InsideWhich := .WAY }

/-- Claim C3, evidence: end-of-way processing of a way with an empty node-id
sequence reads front() and back() of an empty vector, which is undefined
behaviour, so the claimed closed = false is not delivered there; the
non-empty parts of the claim do hold ([1,2,3,1] is closed, [1,2,3] is not). -/
theorem C3_thm :
    processWay sqNodes 9 { Nodes := ([] : List Int) } = .ub
    ∧ closedOf (processWay sqNodes 8 { Nodes := [1, 2, 3, 1] }) = some true
    ∧ closedOf (processWay sqNodes 8 { Nodes := [1, 2, 3] }) = some false := by
  exact ⟨by decide, by decide, by decide⟩

/-- Claim C4, counterexample: the coordinate codec accepts "180.0000001"
(result 1800000001); it does not fail as claimed, because the 180 bound is
checked only while haddot is still zero. -/
theorem C4_cex : ParseCoord "180.0000001" = .ok 1800000001 := by decide

/-- Claim C4, amended: "180.0000001" is accepted with value 1800000001; the
digit-by-digit 180 sanity bound applies only to integer-part digits before
any dot, so inputs whose integer part exceeds 180, such as "181" or
"1800.5", do fail with a ParsingError. -/
theorem C4_thm :
    ParseCoord "180.0000001" = .ok 1800000001
    ∧ ParseCoord "181" = .error .tooLarge
    ∧ ParseCoord "1800.5" = .error .tooLarge
    ∧ (Err.coord .tooLarge).excClass = .parsing := by
  exact ⟨by decide, by decide, by decide, rfl⟩

/-- Claim C5, evidence: a node element whose id attribute is 4294967301
(inside the signed 64-bit range) is stored under the 32-bit-wrapped key 5,
because StartElement assigns strtol's long result to an int; querying the
original id afterwards fails. -/
theorem C5_thm :
    StartElement c5pre "node" [("id", "4294967301"), ("lat", "1"), ("lon", "2")] = .ok c5post
    ∧ toInt32 (strtol "4294967301") = 5
    ∧ GetNode c5post 4294967301 = .error .dataNotFound
    ∧ GetNode c5post 5 = .ok ⟨⟨20000000, 10000000⟩⟩ := by
  exact ⟨by decide, by decide, by decide, by decide⟩

/-- Claim C8, evidence: a member element with an unrecognized type value
fails with a ParsingError, and a well-formed member is parsed and appended
in encounter order; but a member element missing a required attribute (ref,
type or role) does not fail — the C++ reads an uninitialized local, which
is undefined behaviour. -/
theorem C8_thm :
    parseMember [("type", "node"), ("ref", "1")] = .ub
    ∧ parseMember [("ref", "1"), ("role", "outer")] = .ub
    ∧ parseMember [("type", "city"), ("ref", "1"), ("role", "r")] = .err .badMemberType
    ∧ Err.excClass .badMemberType = .parsing
    ∧ parseMember [("type", "node"), ("ref", "5"), ("role", "outer")] = .ok ⟨.NODE, 5, "outer"⟩
    ∧ StartElement relPre "member" [("type", "way"), ("ref", "2"), ("role", "b")] = .ok relPost := by
  exact ⟨by decide, by decide, by decide, rfl, by decide, by decide⟩

/-- Claim C1, counterexample: the end-of-way failure for a missing node
reference is thrown as a ParsingException (parsing class), not as the
DataError the claim names. -/
theorem C1_cex :
    processWay [] 7 { Nodes := [5, 5] } = .err (.nodeNotFound 5 7)
    ∧ (Err.nodeNotFound 5 7).excClass = .parsing
    ∧ (Err.nodeNotFound 5 7).excClass ≠ ExcClass.data := by
  exact ⟨by decide, rfl, by decide⟩

/-- Claim C7, counterexample: "1.2345678.9" contains a second dot but is
accepted with value 12345678, because the scan breaks at the 7th
fractional digit before ever seeing the second dot. -/
theorem C7_cex : ParseCoord "1.2345678.9" = .ok 12345678 := by decide

/-- The closed-way loop aborts on the first node id that does not resolve. -/
theorem closedLoop_missing (nm : NodesMap) (wid : Int) :
    ∀ (ids : List Int) (j : Int), firstMissing nm ids = some j →
      ∀ (p? : Option Vector2i) (area : Int) (bb : BBoxi),
        closedLoop nm wid ids p? area bb = .error (.nodeNotFound j wid) := by
  intro ids
  induction ids with
  | nil => intro j h; simp [firstMissing] at h
  | cons i rest ih =>
    intro j h p? area bb
    rcases hl : nm.lookup i with _ | nd
    · have hj : j = i := by
        rw [firstMissing, List.find?_cons_of_pos] at h
        · exact (Option.some_inj.mp h).symm
        · simp [hl]
      subst hj
      simp [closedLoop, hl]
    · have h' : firstMissing nm rest = some j := by
        rw [firstMissing, List.find?_cons_of_neg] at h
        · exact h
        · simp [hl]
      simp only [closedLoop, hl]
      exact ih j h' (some nd.Pos) _ _

/-- The non-closed-way loop aborts on the first node id that does not
resolve. -/
theorem openLoop_missing (nm : NodesMap) (wid : Int) :
    ∀ (ids : List Int) (j : Int), firstMissing nm ids = some j →
      ∀ (bb : BBoxi), openLoop nm wid ids bb = .error (.nodeNotFound j wid) := by
  intro ids
  induction ids with
  | nil => intro j h; simp [firstMissing] at h
  | cons i rest ih =>
    intro j h bb
    rcases hl : nm.lookup i with _ | nd
    · have hj : j = i := by
        rw [firstMissing, List.find?_cons_of_pos] at h
        · exact (Option.some_inj.mp h).symm
        · simp [hl]
      subst hj
      simp [openLoop, hl]
    · have h' : firstMissing nm rest = some j := by
        rw [firstMissing, List.find?_cons_of_neg] at h
        · exact h
        · simp [hl]
      simp only [openLoop, hl]
      exact ih j h' _

/-- End-of-way processing fails on the first unresolvable node reference
whether or not the way is closed. -/
theorem processWay_missing (nm : NodesMap) (wid j : Int) (w : Way)
    (h : firstMissing nm w.Nodes = some j) :
    processWay nm wid w = .err (.nodeNotFound j wid) := by
  rcases hN : w.Nodes with _ | ⟨n0, rest⟩
  · rw [hN] at h; simp [firstMissing] at h
  · rw [hN] at h
    simp only [processWay, hN]
    split
    · rw [closedLoop_missing nm wid (n0 :: rest) j h]
    · rw [openLoop_missing nm wid (n0 :: rest) j h]

/-- The nd handler can only be undefined behaviour, the no-ref error, or a
parsed reference. -/
theorem parseNd_cases (atts : List (String × String)) :
    parseNd atts = .ub ∨ parseNd atts = .err .noRefAttr ∨ ∃ r, parseNd atts = .ok r := by
  rcases atts with _ | ⟨⟨n, v⟩, rest⟩
  · left; rfl
  · by_cases h : n = "ref"
    · right; right; exact ⟨toInt32 (strtol v), by simp [parseNd, h]⟩
    · right; left; simp [parseNd, h]

/-- Opening an nd element never reports a missing node: node resolution is
not attempted before end-of-way processing. -/
theorem StartElement_nd_no_notFound (s : PState) (atts : List (String × String)) (j wid : Int) :
    StartElement s "nd" atts ≠ .err (.nodeNotFound j wid) := by
  intro h
  simp only [StartElement] at h
  split at h
  · split at h <;> simp at h
  · split at h
    · simp at h
    · split at h
      · rcases parseNd_cases atts with hc | hc | ⟨r, hc⟩ <;> rw [hc] at h <;> simp at h
      · split at h
        · simp at h
        · split at h <;> simp at h

/-- Claim C1, amended: a way that references a node id absent from the node
map at end-of-way processing fails there with a ParsingError (thrown as
ParsingException, not DataError) carrying the first missing node id and the
referencing way id; and the failure indeed cannot occur earlier, since
processing an nd element never reports a missing node. -/
theorem C1_thm :
    (∀ (nm : NodesMap) (wid j : Int) (w : Way), firstMissing nm w.Nodes = some j →
        processWay nm wid w = .err (.nodeNotFound j wid)
        ∧ (Err.nodeNotFound j wid).excClass = .parsing)
    ∧ (∀ (s : PState) (atts : List (String × String)) (j wid : Int),
        StartElement s "nd" atts ≠ .err (.nodeNotFound j wid)) := by
  constructor
  · intro nm wid j w h
    exact ⟨processWay_missing nm wid j w h, rfl⟩
  · exact StartElement_nd_no_notFound

/-- Claim C1, witness at a concrete input: way 8 with node list [6, 6] over
an empty node map. -/
theorem C1_witness :
    processWay [] 8 { Nodes := [6, 6] } = .err (.nodeNotFound 6 8)
    ∧ (Err.nodeNotFound 6 8).excClass = .parsing :=
  C1_thm.1 [] 8 6 { Nodes := [6, 6] } (by decide)

/-- When every node id of the list resolves, the closed-way loop succeeds
and its accumulator is the initial area plus the shoelace sum over the
resolved positions (seeded with the optional previous position). -/
theorem closedLoop_resolved (nm : NodesMap) (wid : Int) :
    ∀ (ids : List Int) (ps : List Vector2i), resolveList nm ids = some ps →
      ∀ (p? : Option Vector2i) (area : Int) (bb : BBoxi),
        ∃ bb', closedLoop nm wid ids p? area bb = .ok (area + shoelacePrev p? ps, bb') := by
  intro ids
  induction ids with
  | nil =>
    intro ps h p? area bb
    simp [resolveList] at h
    subst h
    refine ⟨bb, ?_⟩
    rcases p? with _ | p <;> simp [closedLoop, shoelacePrev, shoelaceSum]
  | cons i rest ih =>
    intro ps h p? area bb
    rw [resolveList] at h
    rcases hl : nm.lookup i with _ | nd <;> rw [hl] at h
    · simp at h
    · rcases hr : resolveList nm rest with _ | ps' <;> rw [hr] at h
      · simp at h
      · simp only [Option.some_inj] at h
        subst h
        obtain ⟨bb', hbb⟩ := ih ps' hr (some nd.Pos)
          (match p? with
           | none => area
           | some p => area + p.x * nd.Pos.y - nd.Pos.x * p.y)
          (bb.Include nd.Pos)
        refine ⟨bb', ?_⟩
        simp only [closedLoop, hl]
        rw [hbb]
        rcases p? with _ | p
        · simp [shoelacePrev]
        · simp only [shoelacePrev, shoelaceSum]
          congr 1
          rw [Int.add_sub_assoc, Int.add_assoc, Int.sub_eq_add_neg, Int.add_assoc]

/-- Claim C2: for a closed way (nonempty list, first id equal to last id)
whose references all resolve, the clockwise flag is exactly the test
"shoelace sum strictly negative" over the resolved positions; the
counter-clockwise square yields clockwise = false, its reverse yields
true, and the zero-sum degenerate ring [1, 1] yields false. -/
theorem C2_thm :
    (∀ (nm : NodesMap) (wid : Int) (w : Way) (ps : List Vector2i) (n0 : Int) (rest : List Int),
        w.Nodes = n0 :: rest → w.Nodes.getLastD 0 = n0 → resolveList nm w.Nodes = some ps →
        ∃ w', processWay nm wid w = .ok w' ∧ w'.Clockwise = decide (shoelaceSum ps < 0))
    ∧ clockwiseOf (processWay sqNodes 7 wayCCW) = some false
    ∧ clockwiseOf (processWay sqNodes 7 wayCW) = some true
    ∧ clockwiseOf (processWay sqNodes 7 { Nodes := [1, 1] }) = some false := by
  refine ⟨?_, by decide, by decide, by decide⟩
  intro nm wid w ps n0 rest hN hL hres
  obtain ⟨bb', hcl⟩ := closedLoop_resolved nm wid w.Nodes ps hres none 0 w.BBox
  rw [hN] at hL hcl
  simp only [processWay, hN]
  rw [if_pos hL.symm, hcl]
  refine ⟨_, rfl, ?_⟩
  simp [shoelacePrev]

/-- Claim C2, witness at a concrete input: the counter-clockwise square. -/
theorem C2_witness :
    ∃ w', processWay sqNodes 7 wayCCW = .ok w'
      ∧ w'.Clockwise = decide (shoelaceSum [⟨0, 0⟩, ⟨10, 0⟩, ⟨10, 10⟩, ⟨0, 10⟩, ⟨0, 0⟩] < 0) :=
  C2_thm.1 sqNodes 7 wayCCW [⟨0, 0⟩, ⟨10, 0⟩, ⟨10, 10⟩, ⟨0, 10⟩, ⟨0, 0⟩] 1 [2, 3, 4, 1]
    (by decide) (by decide) (by decide)

/-- Opening any element other than bounds or bound leaves the dataset
bounding box unchanged. -/
theorem StartElement_bbox (s : PState) (n : String) (atts : List (String × String)) (s' : PState)
    (h1 : n ≠ "bounds") (h2 : n ≠ "bound")
    (h : StartElement s n atts = .ok s') : s'.bbox_ = s.bbox_ := by
  simp only [StartElement] at h
  repeat' split at h
  all_goals try (injection h with hinj; rw [← hinj])
  all_goals simp_all

/-- Closing an element never touches the dataset bounding box (the way loop
updates only the way's own box). -/
theorem EndElement_bbox (s : PState) (n : String) (s' : PState)
    (h : EndElement s n = .ok s') : s'.bbox_ = s.bbox_ := by
  simp only [EndElement] at h
  repeat' split at h
  all_goals try (injection h with hinj; rw [← hinj])
  all_goals simp_all

/-- A successful event stream containing no bounds and no bound element
preserves the dataset bounding box. -/
theorem processEvents_bbox :
    ∀ (evs : List XmlEvent) (s s' : PState),
      evs.all (fun e => !isBBoxEvent e) = true →
      processEvents s evs = .ok s' → s'.bbox_ = s.bbox_ := by
  intro evs
  induction evs with
  | nil =>
    intro s s' _ h
    simp only [processEvents, CRes.ok.injEq] at h
    rw [← h]
  | cons e rest ih =>
    intro s s' hall h
    simp only [List.all_cons, Bool.and_eq_true] at hall
    obtain ⟨he, hrest⟩ := hall
    simp only [processEvents] at h
    rcases hst : step s e with s1 | er | _ <;> rw [hst] at h
    · have h1 : s1.bbox_ = s.bbox_ := by
        cases e with
        | startEl n atts =>
          have hn : n ≠ "bounds" ∧ n ≠ "bound" := by
            simpa [isBBoxEvent] using he
          exact StartElement_bbox s n atts s1 hn.1 hn.2 hst
        | endEl n => exact EndElement_bbox s n s1 hst
      rw [ih s1 s' hrest h, h1]
    · simp at h
    · simp at h

/-- Point inclusion into any box in the empty state collapses to the point
box, the same result as inclusion into the empty sentinel. -/
theorem Include_of_isEmpty (b : BBoxi) (hb : b.IsEmpty = true) (p : Vector2i) :
    b.Include p = BBoxi.EmptyBox.Include p := by
  rw [BBoxi.Include, BBoxi.Include, if_pos hb,
    if_pos (by decide : BBoxi.EmptyBox.IsEmpty = true)]

/-- Claim C6: the recomputation fires exactly when the dataset box is still
empty after streaming.  First part: a stream with no bounds and no bound
element leaves the box at the sentinel, so the final box is the fold of
point inclusion, from the empty box, over all stored node positions.
Second part: the same conclusion for any stream whose declared box is left
in the empty state (for example a legacy bound element with no box
attribute, which ParseBound returns unchecked), whenever a node exists or
the box is the literal sentinel.  Third part: in the residual corner (no
nodes stored and an empty-but-not-sentinel declared box) the fold over zero
positions leaves the declared box itself. -/
theorem C6_thm :
    (∀ (s : PState) (evs : List XmlEvent) (s1 : PState),
        evs.all (fun e => !isBBoxEvent e) = true →
        LoadEvents s evs = .ok s1 →
        s1.bbox_ = s1.nodes_.foldl (fun b kv => b.Include kv.2.Pos) BBoxi.EmptyBox)
    ∧ (∀ (s : PState) (evs : List XmlEvent) (s1pre : PState),
        processEvents { s with bbox_ := BBoxi.EmptyBox, InsideWhich := .NONE, tag_level_ := 0 } evs
          = .ok s1pre →
        s1pre.bbox_.IsEmpty = true →
        s1pre.nodes_ ≠ [] ∨ s1pre.bbox_ = BBoxi.EmptyBox →
        ∃ s1, LoadEvents s evs = .ok s1 ∧ s1.nodes_ = s1pre.nodes_
          ∧ s1.bbox_ = s1pre.nodes_.foldl (fun b kv => b.Include kv.2.Pos) BBoxi.EmptyBox)
    ∧ (∀ (s : PState) (evs : List XmlEvent) (s1pre : PState),
        processEvents { s with bbox_ := BBoxi.EmptyBox, InsideWhich := .NONE, tag_level_ := 0 } evs
          = .ok s1pre →
        s1pre.bbox_.IsEmpty = true →
        s1pre.nodes_ = [] →
        ∃ s1, LoadEvents s evs = .ok s1 ∧ s1.bbox_ = s1pre.bbox_) := by
  refine ⟨?_, ?_, ?_⟩
  · intro s evs s1 hnb hld
    simp only [LoadEvents] at hld
    rcases hpe : processEvents { s with bbox_ := BBoxi.EmptyBox, InsideWhich := .NONE, tag_level_ := 0 } evs
      with s' | e | _ <;> rw [hpe] at hld
    · have hb : s'.bbox_ = BBoxi.EmptyBox := by
        have := processEvents_bbox evs _ s' hnb hpe
        simpa using this
      have hs1 : s1 = bboxPostprocess s' := by
        simp only [CRes.ok.injEq] at hld
        exact hld.symm
      subst hs1
      have hemp : BBoxi.EmptyBox.IsEmpty = true := by decide
      simp only [bboxPostprocess, hb, hemp]
      simp
    · simp at hld
    · simp at hld
  · intro s evs s1pre hpe hempty hcase
    refine ⟨bboxPostprocess s1pre, by simp [LoadEvents, hpe], ?_, ?_⟩
    · rw [bboxPostprocess, if_pos hempty]
    · rw [bboxPostprocess, if_pos hempty]
      show s1pre.nodes_.foldl (fun b kv => b.Include kv.2.Pos) s1pre.bbox_
        = s1pre.nodes_.foldl (fun b kv => b.Include kv.2.Pos) BBoxi.EmptyBox
      rcases hcase with hne | hsent
      · rcases hn : s1pre.nodes_ with _ | ⟨n0, ns⟩
        · exact absurd hn hne
        · simp only [List.foldl_cons]
          rw [Include_of_isEmpty s1pre.bbox_ hempty]
      · rw [hsent]
  · intro s evs s1pre hpe hempty hn
    refine ⟨bboxPostprocess s1pre, by simp [LoadEvents, hpe], ?_⟩
    rw [bboxPostprocess, if_pos hempty]
    show s1pre.nodes_.foldl (fun b kv => b.Include kv.2.Pos) s1pre.bbox_ = s1pre.bbox_
    rw [hn]
    rfl

/-- Claim C6, witness at a concrete input: a dump with a legacy bound
element carrying no box attribute (the declared box stays in the empty
sentinel state) and one node at (lon 3, lat 2); the node positions are
recomputed into the dataset box. -/
theorem C6_witness :
    ∃ s1, LoadEvents {} c6evs = .ok s1 ∧ s1.nodes_ = c6s1pre.nodes_
      ∧ s1.bbox_ = c6s1pre.nodes_.foldl (fun b kv => b.Include kv.2.Pos) BBoxi.EmptyBox :=
  C6_thm.2.1 {} c6evs c6s1pre (by decide) (by decide) (Or.inr (by decide))

/-- Claim C9: Clear empties exactly the three entity maps, leaving every
other field, the dataset bounding box included, unchanged; and the dataset
bounding box a Load call starts from does not depend on the box left by
the previous load, because Load resets it to the empty sentinel first. -/
theorem C9_thm :
    (∀ s : PState, Clear s = { s with nodes_ := [], ways_ := [], relations_ := [] })
    ∧ (∀ (s : PState) (b : BBoxi) (evs : List XmlEvent),
        LoadEvents { s with bbox_ := b } evs = LoadEvents s evs) := by
  constructor
  · intro s; rfl
  · intro s b evs; rfl

/-- Lookup of the key just inserted at the head of an association list. -/
theorem lookup_cons_self {α β : Type} [BEq α] [LawfulBEq α] (a : α) (b : β) (l : List (α × β)) :
    List.lookup a ((a, b) :: l) = some b := by
  simp [List.lookup]

/-- Lookup skips an entry with a different key. -/
theorem lookup_cons_ne {α β : Type} [BEq α] [LawfulBEq α] {a k : α} (h : a ≠ k) (b : β) (l : List (α × β)) :
    List.lookup k ((a, b) :: l) = List.lookup k l := by
  have hb : (k == a) = false := beq_eq_false_iff_ne.mpr (Ne.symm h)
  simp [List.lookup, hb]

/-- Updating through the remembered iterator rewrites exactly the looked-up
entry. -/
theorem lookup_mapUpdate {α : Type} (m : List (Int × α)) (k : Int) (f : α → α) :
    (mapUpdate m k f).lookup k = (m.lookup k).map f := by
  induction m with
  | nil => rfl
  | cons kv rest ih =>
    obtain ⟨a, b⟩ := kv
    simp only [mapUpdate, List.map_cons]
    by_cases hak : a = k
    · subst hak
      rw [if_pos rfl]
      rw [lookup_cons_self, lookup_cons_self]
      rfl
    · rw [if_neg hak, lookup_cons_ne hak, lookup_cons_ne hak]
      exact ih

/-- Appending a fresh key at the end of an association list makes it
visible to lookup. -/
theorem lookup_append_single {α β : Type} [BEq α] [LawfulBEq α] (m : List (α × β)) (k : α) (v : β)
    (h : m.lookup k = none) : (m ++ [(k, v)]).lookup k = some v := by
  induction m with
  | nil => simp [List.lookup]
  | cons kv rest ih =>
    obtain ⟨a, b⟩ := kv
    by_cases hak : a = k
    · subst hak
      rw [lookup_cons_self] at h
      simp at h
    · rw [lookup_cons_ne hak] at h
      rw [List.cons_append, lookup_cons_ne hak]
      exact ih h

/-- Claim C10: two tag elements in the same way with the same key leave
the value of the first occurrence in the map (std::map::insert does not
overwrite), and in general an insert on a present key is discarded. -/
theorem C10_thm :
    (∀ (ns : NodesMap) (ws : WaysMap) (rs : RelationsMap) (bb : BBoxi) (ln lw lr : Int)
        (w : Way) (k v1 v2 : String),
        ws.lookup lw = some w → w.Tags.lookup k = none →
        ∃ s3 w',
          processEvents
            { nodes_ := ns, ways_ := ws, relations_ := rs, bbox_ := bb, tag_level_ := 2,
              InsideWhich := .WAY, last_node_ := ln, last_way_ := lw, last_relation_ := lr }
            [.startEl "tag" [("k", k), ("v", v1)], .endEl "tag", .startEl "tag" [("k", k), ("v", v2)]]
            = .ok s3
          ∧ s3.ways_.lookup lw = some w'
          ∧ w'.Tags.lookup k = some v1)
    ∧ (∀ (m : TagsMap) (k v : String), (m.lookup k).isSome → TagsMap.insertKV m k v = m) := by
  constructor
  · intro ns ws rs bb ln lw lr w k v1 v2 hway hk
    refine ⟨{ nodes_ := ns,
              ways_ := mapUpdate
                (mapUpdate ws lw (fun u => { u with Tags := ParseTag u.Tags [("k", k), ("v", v1)] })) lw
                (fun u => { u with Tags := ParseTag u.Tags [("k", k), ("v", v2)] }),
              relations_ := rs, bbox_ := bb, tag_level_ := 3, InsideWhich := .WAY,
              last_node_ := ln, last_way_ := lw, last_relation_ := lr },
            { w with Tags := ParseTag (ParseTag w.Tags [("k", k), ("v", v1)]) [("k", k), ("v", v2)] },
            ?_, ?_, ?_⟩
    · simp [processEvents, step, StartElement, EndElement]
    · show (mapUpdate
          (mapUpdate ws lw (fun u => { u with Tags := ParseTag u.Tags [("k", k), ("v", v1)] })) lw
          (fun u => { u with Tags := ParseTag u.Tags [("k", k), ("v", v2)] })).lookup lw = some _
      rw [lookup_mapUpdate, lookup_mapUpdate, hway]
      rfl
    · have htags1 : ParseTag w.Tags [("k", k), ("v", v1)] = w.Tags ++ [(k, v1)] := by
        simp [ParseTag, scanTagKV, TagsMap.insertKV, hk]
      have hlk1 : (w.Tags ++ [(k, v1)]).lookup k = some v1 := lookup_append_single w.Tags k v1 hk
      have htags2 : ParseTag (w.Tags ++ [(k, v1)]) [("k", k), ("v", v2)] = w.Tags ++ [(k, v1)] := by
        simp [ParseTag, scanTagKV, TagsMap.insertKV, hlk1]
      show List.lookup k (ParseTag (ParseTag w.Tags [("k", k), ("v", v1)]) [("k", k), ("v", v2)]) = some v1
      rw [htags1, htags2]
      exact hlk1
  · intro m k v h
    rcases hm : m.lookup k with _ | v0
    · rw [hm] at h; simp at h
    · simp [TagsMap.insertKV, hm]

/-- Claim C10, witness at a concrete input: way 4 with duplicate key
highway keeps the first value primary. -/
theorem C10_witness :
    ∃ s3 w',
      processEvents
        { nodes_ := [], ways_ := [(4, {})], relations_ := [], bbox_ := BBoxi.EmptyBox,
          tag_level_ := 2, InsideWhich := .WAY, last_node_ := 0, last_way_ := 4, last_relation_ := 0 }
        [.startEl "tag" [("k", "highway"), ("v", "primary")], .endEl "tag",
         .startEl "tag" [("k", "highway"), ("v", "secondary")]] = .ok s3
      ∧ s3.ways_.lookup 4 = some w'
      ∧ w'.Tags.lookup "highway" = some "primary" :=
  C10_thm.1 [] [(4, {})] [] BBoxi.EmptyBox 0 4 0 {} "highway" "primary" "secondary"
    (by decide) (by decide)

/-- The haddot counter of the coordinate scan never decreases. -/
theorem coordScan_hd_mono :
    ∀ (cs : List Char) (v : Int) (fd hd : Nat) (v' : Int) (fd' hd' : Nat),
      coordScan cs v fd hd = .ok (v', fd', hd') → hd ≤ hd' := by
  intro cs
  induction cs with
  | nil =>
    intro v fd hd v' fd' hd' h
    simp [coordScan] at h
    omega
  | cons c rest ih =>
    intro v fd hd v' fd' hd' h
    simp only [coordScan] at h
    split at h
    · split at h
      · split at h
        · simp at h
        · exact ih _ _ _ _ _ _ h
      · split at h
        · simp at h
          omega
        · have := ih _ _ _ _ _ _ h
          omega
    · split at h
      · have := ih _ _ _ _ _ _ h
        omega
      · simp at h

/-- Scanning a dot-free segment before the first dot either fails or
arrives at the dot with haddot 1. -/
theorem coordScan_prefixA :
    ∀ (a : List Char), '.' ∉ a → ∀ (v : Int) (rest : List Char),
      (∃ e, coordScan (a ++ '.' :: rest) v 0 0 = .error e) ∨
      (∃ v', coordScan (a ++ '.' :: rest) v 0 0 = coordScan rest v' 0 1) := by
  intro a
  induction a with
  | nil =>
    intro _ v rest
    right
    exact ⟨v, by simp [coordScan]⟩
  | cons c a' ih =>
    intro hna v rest
    have hc : c ≠ '.' := fun hEq => hna (hEq ▸ List.mem_cons_self c a')
    have hna' : '.' ∉ a' := fun hm => hna (List.mem_cons_of_mem c hm)
    by_cases hd9 : '0' ≤ c ∧ c ≤ '9'
    · by_cases hbig : v * 10 + ((c.toNat : Int) - 48) > 180
      · left
        exact ⟨.tooLarge, by simp [coordScan, hd9, hbig]⟩
      · rcases ih hna' (v * 10 + ((c.toNat : Int) - 48)) rest with ⟨e, he⟩ | ⟨v', hv⟩
        · left
          refine ⟨e, ?_⟩
          simp only [List.cons_append, coordScan, if_pos hd9]
          simp only [if_pos rfl, if_neg hbig]
          exact he
        · right
          refine ⟨v', ?_⟩
          simp only [List.cons_append, coordScan, if_pos hd9]
          simp only [if_pos rfl, if_neg hbig]
          exact hv
    · left
      exact ⟨.badSymbol, by simp [coordScan, hd9, hc]⟩

/-- Scanning a dot-free fractional segment short enough to stay under the
7-digit cutoff either fails or reaches the second dot, raising haddot
to 2. -/
theorem coordScan_prefixB :
    ∀ (b : List Char), '.' ∉ b → ∀ (fd : Nat), fd + b.length ≤ 6 → ∀ (v : Int) (rest : List Char),
      (∃ e, coordScan (b ++ '.' :: rest) v fd 1 = .error e) ∨
      (∃ v' fd', coordScan (b ++ '.' :: rest) v fd 1 = coordScan rest v' fd' 2) := by
  intro b
  induction b with
  | nil =>
    intro _ fd _ v rest
    right
    exact ⟨v, fd, by simp [coordScan]⟩
  | cons c b' ih =>
    intro hnb fd hlen v rest
    have hc : c ≠ '.' := fun hEq => hnb (hEq ▸ List.mem_cons_self c b')
    have hnb' : '.' ∉ b' := fun hm => hnb (List.mem_cons_of_mem c hm)
    have hlen' : (fd + 1) + b'.length ≤ 6 := by
      simp [List.length_cons] at hlen
      omega
    by_cases hd9 : '0' ≤ c ∧ c ≤ '9'
    · have hne7 : ¬(fd + 1 = 7) := by omega
      rcases ih hnb' (fd + 1) hlen' (v * 10 + ((c.toNat : Int) - 48)) rest with ⟨e, he⟩ | ⟨v', fd', hv⟩
      · left
        refine ⟨e, ?_⟩
        simp only [List.cons_append, coordScan, if_pos hd9]
        simp only [if_neg (by omega : ¬(1 = 0)), if_neg hne7]
        exact he
      · right
        refine ⟨v', fd', ?_⟩
        simp only [List.cons_append, coordScan, if_pos hd9]
        simp only [if_neg (by omega : ¬(1 = 0)), if_neg hne7]
        exact hv
    · left
      exact ⟨.badSymbol, by simp [coordScan, hd9, hc]⟩

/-- A second dot reached with fewer than 7 fractional digits before it
makes the decoder fail: either an earlier scan error, or the post-scan
multiple-dots check fires because haddot ended at 2 or more. -/
theorem parseCoordTail_twoDots (neg : Bool) (a b c : List Char)
    (ha : '.' ∉ a) (hb : '.' ∉ b) (hlen : b.length ≤ 6) :
    ∃ e, parseCoordTail neg (a ++ '.' :: (b ++ '.' :: c)) = .error e := by
  rcases coordScan_prefixA a ha 0 (b ++ '.' :: c) with ⟨e, he⟩ | ⟨v', hv⟩
  · exact ⟨e, by simp [parseCoordTail, he]⟩
  · rcases coordScan_prefixB b hb 0 (by omega) v' c with ⟨e, he⟩ | ⟨v'', fd'', hv2⟩
    · exact ⟨e, by simp [parseCoordTail, hv, he]⟩
    · rcases hres : coordScan c v'' fd'' 2 with e | ⟨v3, fd3, hd3⟩
      · exact ⟨e, by simp [parseCoordTail, hv, hv2, hres]⟩
      · have hge : 2 ≤ hd3 := coordScan_hd_mono c v'' fd'' 2 v3 fd3 hd3 hres
        refine ⟨.multipleDots, ?_⟩
        simp only [parseCoordTail, hv, hv2, hres]
        rw [if_pos (by omega : hd3 > 1)]

/-- Claim C7, amended: an input with a second dot fails with a ParsingError
whenever fewer than 7 characters stand between the first and the second
dot (in particular "12.34.5" fails); when 7 or more fractional digits
precede the second dot, the scan stops at the 7th digit and the input can
be accepted, as "1.2345678.9" shows. -/
theorem C7_thm (a b c : List Char) (ha : '.' ∉ a) (hb : '.' ∉ b) (hlen : b.length ≤ 6) :
    ∃ e, ParseCoord (String.mk (a ++ '.' :: (b ++ '.' :: c))) = .error e
      ∧ (Err.coord e).excClass = .parsing := by
  rcases a with _ | ⟨ch, a'⟩
  · obtain ⟨e, he⟩ := parseCoordTail_twoDots false [] b c (by simp) hb hlen
    refine ⟨e, ?_, rfl⟩
    simpa [ParseCoord] using he
  · by_cases hneg : ch = '-'
    · subst hneg
      have ha' : '.' ∉ a' := fun hm => ha (List.mem_cons_of_mem _ hm)
      obtain ⟨e, he⟩ := parseCoordTail_twoDots true a' b c ha' hb hlen
      refine ⟨e, ?_, rfl⟩
      simpa [ParseCoord] using he
    · obtain ⟨e, he⟩ := parseCoordTail_twoDots false (ch :: a') b c ha hb hlen
      refine ⟨e, ?_, rfl⟩
      simpa [ParseCoord, hneg] using he

/-- Claim C7, witness at a concrete input: the string 12.34.5. -/
theorem C7_witness :
    ∃ e, ParseCoord (String.mk (['1', '2'] ++ '.' :: (['3', '4'] ++ '.' :: ['5']))) = .error e
      ∧ (Err.coord e).excClass = .parsing :=
  C7_thm ['1', '2'] ['3', '4'] ['5'] (by decide) (by decide) (by decide)

end Glosm
